import Mathlib

/-!
Verification of the date-utility library `core-js-dates`
(source file `src/core-js-dates-tasks.js`).

The JavaScript source is shallowly embedded as follows.

* A calendar date (a JS `Date` truncated to day precision) is represented
  either by its civil components `(year, month 1-12, day 1-31)` or by its
  serial day number: the count of days since 0000-03-01 of the proleptic
  Gregorian calendar.  `civilToDays` / `daysToCivil` convert between the
  two views using Howard Hinnant's well-known algorithms; they model the
  day-level arithmetic that the JS `Date` object performs internally
  (`getUTCDate`, `setUTCDate`, `getUTCDay`, `setMonth`, timestamp
  subtraction, ...).
* The host environment's timezone is taken to be UTC, which makes the
  local-time accessors (`getDate`, `getDay`, `setDate`, `setMonth`)
  coincide with their UTC counterparts; the library's own documented
  examples assume this.
* JS numbers appearing here are integers throughout (day counts,
  milliseconds); they are modelled by `Nat`/`Int`.  The `NaN` value
  produced by `Number(new Date(badString))` is modelled by `JSNumber.nan`.
* `while` loops are modelled by fuel-indexed recursion returning
  `Option`; `none` models divergence of the JS loop.  Mutation of a
  `Date` argument (`setDate`) is modelled by passing the updated value:
  the embedding of a mutating function maps the argument's old state to
  its new state.
-/

namespace CoreJsDates

/-! ## Day-level calendar arithmetic (the JS `Date` engine) -/

/-- Serial day number of the civil date `(y, m, d)`: days since 0000-03-01
of the proleptic Gregorian calendar (Hinnant's `days_from_civil`,
era-free form valid for `y ≥ 1`). -/
def civilToDays (y m d : Nat) : Nat :=
  let y2 := if m ≤ 2 then y - 1 else y
  let mp := if m ≤ 2 then m + 9 else m - 3
  365 * y2 + y2 / 4 - y2 / 100 + y2 / 400 + (153 * mp + 2) / 5 + (d - 1)

/-- Civil date `(y, m, d)` of a serial day number (Hinnant's
`civil_from_days`). -/
def daysToCivil (z : Nat) : Nat × Nat × Nat :=
  let era := z / 146097
  let doe := z % 146097
  let yoe := (doe - doe / 1460 + doe / 36524 - doe / 146096) / 365
  let y := yoe + era * 400
  let doy := doe - (365 * yoe + yoe / 4 - yoe / 100)
  let mp := (5 * doy + 2) / 153
  let d := doy - (153 * mp + 2) / 5 + 1
  let m := if mp < 10 then mp + 3 else mp - 9
  (if m ≤ 2 then y + 1 else y, m, d)

/-- Day of the week of a serial day number, in JS `getDay`/`getUTCDay`
numbering: 0 = Sunday, ..., 5 = Friday, 6 = Saturday.
(Day 0 = 0000-03-01 is a Wednesday, and `weekday (civilToDays 1970 1 1) = 4`,
a Thursday, as required.) -/
def weekday (z : Nat) : Nat := (z + 3) % 7

/-- Leap-year test on a year number, the rule used by the Gregorian
calendar (and by `isLeapYear` in the source, which reads the year out of
a `Date` first). -/
def isLeapYear (y : Nat) : Bool :=
  (y % 4 == 0 && y % 100 != 0) || y % 400 == 0

/-- Number of days in month `m` of year `y` (Gregorian month lengths). -/
def monthLength (y m : Nat) : Nat :=
  if m = 2 then (if isLeapYear y then 29 else 28)
  else if m = 4 ∨ m = 6 ∨ m = 9 ∨ m = 11 then 30
  else 31

/-! ## Decimal-string helpers (the JS string/number coercions used) -/

/-- Value of a decimal digit character, `none` on a non-digit. -/
def digit? (c : Char) : Option Nat :=
  if c.isDigit then some (c.toNat - 48) else none

/-- Auxiliary accumulator for `digitsToNat?`. -/
def digitsToNatAux : List Char → Nat → Option Nat
  | [], acc => some acc
  | c :: cs, acc =>
      match digit? c with
      | some d => digitsToNatAux cs (acc * 10 + d)
      | none => none

/-- Decimal value of a non-empty all-digit character list, `none`
otherwise; models JS string-to-number coercion on the digit chunks this
library produces. -/
def digitsToNat? : List Char → Option Nat
  | [] => none
  | c :: cs => digitsToNatAux (c :: cs) 0

/-- Splits a character list at each `'-'`, like JS `String.split('-')`. -/
def splitDash : List Char → List (List Char)
  | [] => [[]]
  | c :: cs =>
      let r := splitDash cs
      if c = '-' then [] :: r
      else
        match r with
        | [] => [[c]]
        | g :: gs => (c :: g) :: gs

/-- Parse of a `DD-MM-YYYY` period-endpoint string into `(day, month,
year)`: the source's `period.start.split('-')` followed by the numeric
coercion done by the `Date` constructor.  `none` models the strings on
which that coercion yields `NaN` (an Invalid Date). -/
def parseDDMMYYYY (s : String) : Option (Nat × Nat × Nat) :=
  match (splitDash s.toList).map digitsToNat? with
  | [some d, some m, some y] => some (d, m, y)
  | _ => none

/-- Zero-pad a number below 10 to two characters, the source's repeated
idiom `` x < 10 ? `0${x}` : x ``. -/
def pad2 (n : Nat) : String :=
  if n < 10 then "0" ++ toString n else toString n

/-! ## `dateToTimestamp` (source lines 20-22) -/

/-- Result of JS `Number(...)`: either a genuine (integer) number or the
`NaN` sentinel. -/
inductive JSNumber where
  | nan : JSNumber
  | num : Int → JSNumber
deriving DecidableEq

/-- Modelled from the spec: the host JavaScript engine's date-string
parser invoked by `new Date(string)` — it is not part of this
repository's source.  Per the spec it is "a standard date parser";
it is modelled here for ISO 8601 date-time strings of the exact shape
`YYYY-MM-DDTHH:MM:SS.mmmZ`, returning the UTC components
`(year, month, day, hour, minute, second, millisecond)`; every other
string is unparsable and yields `none` (an Invalid Date). -/
def parseISODateTime (s : String) :
    Option (Nat × Nat × Nat × Nat × Nat × Nat × Nat) :=
  match s.toList with
  | [a1, a2, a3, a4, b1, a5, a6, b2, a7, a8, b3, a9, a10, b4,
     a11, a12, b5, a13, a14, b6, a15, a16, a17, b7] =>
    if b1 = '-' ∧ b2 = '-' ∧ b3 = 'T' ∧ b4 = ':' ∧ b5 = ':' ∧ b6 = '.' ∧ b7 = 'Z' then
      match digitsToNat? [a1, a2, a3, a4], digitsToNat? [a5, a6],
            digitsToNat? [a7, a8], digitsToNat? [a9, a10],
            digitsToNat? [a11, a12], digitsToNat? [a13, a14],
            digitsToNat? [a15, a16, a17] with
      | some y, some mo, some d, some hh, some mi, some ss, some ms =>
          if 1 ≤ mo ∧ mo ≤ 12 ∧ 1 ≤ d ∧ d ≤ monthLength y mo ∧
              hh ≤ 23 ∧ mi ≤ 59 ∧ ss ≤ 59 then
            some (y, mo, d, hh, mi, ss, ms)
          else none
      | _, _, _, _, _, _, _ => none
    else none
  | _ => none

/-- Milliseconds elapsed since 1970-01-01T00:00:00 UTC at the given UTC
components: the time value a JS `Date` stores. -/
def msSinceEpoch (y mo d hh mi ss ms : Nat) : Int :=
  ((civilToDays y mo d : Int) - (civilToDays 1970 1 1 : Int)) * 86400000 +
    hh * 3600000 + mi * 60000 + ss * 1000 + ms

/-- Embeds `dateToTimestamp` (source lines 20-22):
`Number(new Date(date))` — the numeric coercion of a `Date` is its
stored time value, which is `NaN` exactly when the string did not parse. -/
def dateToTimestamp (date : String) : JSNumber :=
  match parseISODateTime date with
  | none => JSNumber.nan
  | some (y, mo, d, hh, mi, ss, ms) => JSNumber.num (msSinceEpoch y mo d hh mi ss ms)

/-! ## `getNextFriday` (source lines 76-89)

The source mutates its argument: `date.setDate(date.getDate() + diff);
return date;`.  The embedding maps the argument's old state (a serial
day number) to its new state, which is also the returned value. -/

/-- Embeds `getNextFriday` (source lines 76-89) on serial day numbers. -/
def getNextFriday (z : Nat) : Nat :=
  let weekDay := weekday z
  let diff := if weekDay < 5 then 5 - weekDay else 7 - weekDay + 5
  z + diff

/-! ## `formatDate` (source lines 169-185)

The leading `new Date(dateStr)` is the engine's ISO parse; the embedding
takes the parsed UTC components directly. -/

/-- Embeds `formatDate` (source lines 169-185) as a function of the UTC
components of the parsed instant. -/
def formatDate (y m d hh mi ss : Nat) : String :=
  let formattedMinutes := if mi < 10 then "0" ++ toString mi else toString mi
  let formattedSeconds := if ss < 10 then "0" ++ toString ss else toString ss
  let dayPart := if 1 ≤ hh ∧ hh ≤ 11 then "AM" else "PM"
  let hoursFormatted := if hh ≠ 0 ∧ hh ≠ 12 then hh % 12 else 12
  toString m ++ "/" ++ toString d ++ "/" ++ toString y ++ ", " ++
    toString hoursFormatted ++ ":" ++ formattedMinutes ++ ":" ++ formattedSeconds ++
    " " ++ dayPart

/-! ## `getWeekNumberByDate` (source lines 227-244) -/

/-- Embeds `getWeekNumberByDate` (source lines 227-244) on civil
components.  `yearStart.setUTCMonth(0, 1)` turns a copy of the date into
January 1 of the same year keeping the time of day, so
`Math.floor((date - yearStart) / msPerDay)` is the exact whole-day
difference; `Math.ceil(x / 7)` on a non-negative integer `x` is
`(x + 6) / 7` in integer arithmetic. -/
def getWeekNumberByDate (y m d : Nat) : Nat :=
  let yearStart := civilToDays y 1 1
  let diffInDays := civilToDays y m d - yearStart
  let shift :=
    if weekday yearStart ≠ 1 ∧ weekday yearStart ≠ 0 then weekday yearStart - 1
    else if weekday yearStart = 0 then 6 else 0
  (diffInDays + shift + 1 + 6) / 7

/-- Spec-side shift rule, written from the claim's words: "shift = 6 if
January 1 of that year falls on Sunday, shift = 0 if it falls on Monday,
and shift = weekday_index − 1 otherwise". -/
def shiftSpec (wd : Nat) : Nat :=
  if wd = 0 then 6 else if wd = 1 then 0 else wd - 1

/-! ## `getNextFridayThe13th` (source lines 257-275) -/

/-- Embeds the `while (typeof monthCounter === 'number')` search loop of
`getNextFridayThe13th`: each iteration takes a fresh copy of the input
and does `localCopy.setMonth(monthCounter, 13)` — month index
`monthCounter` (rolling into later years when it exceeds 11) and day of
month 13 — and stops at the first candidate whose `getDay()` is 5
(Friday).  The JS loop is unbounded; fuel-indexed recursion models it,
`none` modelling non-termination. -/
def fridayThe13thFrom (y : Nat) : Nat → Nat → Option (Nat × Nat × Nat)
  | 0, _ => none
  | fuel + 1, monthCounter =>
      let cy := y + monthCounter / 12
      let cm := monthCounter % 12 + 1
      if weekday (civilToDays cy cm 13) = 5 then some (cy, cm, 13)
      else fridayThe13thFrom y fuel (monthCounter + 1)

/-- Embeds `getNextFridayThe13th` (source lines 257-275) on civil
components; the search starts at the input's own month index
(`copy.getMonth()`), and the input's day of month is never consulted.
1000 months of fuel is far more than the search ever needs (a
Friday the 13th occurs at least once every 14 months). -/
def getNextFridayThe13th (y m : Nat) (_day : Nat) : Option (Nat × Nat × Nat) :=
  fridayThe13thFrom y 1000 (m - 1)

/-! ## `getWorkSchedule` (source lines 312-343) -/

/-- Period of two `DD-MM-YYYY` date strings, the source's `DatePeriod`
`{ start, end }` (`end` is a reserved word in Lean, hence `stop`). -/
structure DatePeriod where
  start : String
  stop : String

/-- Formats the civil date of a serial day number as `DD-MM-YYYY`, the
in-loop formatting of `getWorkSchedule` (source line 332). -/
def formatDDMMYYYY (z : Nat) : String :=
  let c := daysToCivil z
  pad2 c.2.2 ++ "-" ++ pad2 c.2.1 ++ "-" ++ toString c.1

/-- Embeds the inner `for (let j = 0; j < countWorkDays; j += 1)` block
of `getWorkSchedule`: starting at day offset `c` from `startZ`, emit the
formatted date for the current offset, increment the offset, and break
as soon as the offset exceeds `diff`; `j` counts the remaining
iterations.  Returns the updated offset counter and the extended
accumulator. -/
def workBlock (startZ diff : Nat) : Nat → Nat → List String → Nat × List String
  | 0, c, acc => (c, acc)
  | j + 1, c, acc =>
      let acc2 := acc ++ [formatDDMMYYYY (startZ + c)]
      let c2 := c + 1
      if diff < c2 then (c2, acc2) else workBlock startZ diff j c2 acc2

/-- Body of one outer `while` iteration of `getWorkSchedule`: the inner
work-day block followed by `interimDateCounter += countOffDays`. -/
def workStep (startZ diff countWorkDays countOffDays : Nat)
    (c : Nat) (acc : List String) : Nat × List String :=
  let p := workBlock startZ diff countWorkDays c acc
  (p.1 + countOffDays, p.2)

/-- Embeds the outer `while (interimDateCounter <= diff)` loop of
`getWorkSchedule`, fuel-indexed; `none` models divergence (which the JS
loop exhibits when `countWorkDays = 0 = countOffDays`). -/
def workLoop (startZ diff countWorkDays countOffDays : Nat) :
    Nat → Nat → List String → Option (List String)
  | 0, c, acc => if c ≤ diff then none else some acc
  | fuel + 1, c, acc =>
      if c ≤ diff then
        let p := workStep startZ diff countWorkDays countOffDays c acc
        workLoop startZ diff countWorkDays countOffDays fuel p.1 p.2
      else some acc

/-- Embeds `getWorkSchedule` (source lines 312-343).  The two period
endpoints are parsed from `DD-MM-YYYY`; `diff` is
`Math.ceil((endDate - startDate) / msPerDay)`, the exact whole-day
difference (no `+ 1` adjustment).  When `diff` is negative the `while`
guard `0 <= diff` fails at once and the empty array is returned, which
the `endZ < startZ` branch models.  `workLoop_eq` below shows the fuel
`diff + 1` to be sufficient whenever `countWorkDays ≥ 1`, so on that
domain the `Option` is always `some`; a malformed endpoint string makes
every comparison with the resulting `NaN` false, so the JS loop body
never runs and `[]` is returned. -/
def getWorkSchedule (period : DatePeriod) (countWorkDays countOffDays : Nat) :
    Option (List String) :=
  match parseDDMMYYYY period.start, parseDDMMYYYY period.stop with
  | some (sd, sm, sy), some (ed, em, ey) =>
      let startZ := civilToDays sy sm sd
      let endZ := civilToDays ey em ed
      if endZ < startZ then some []
      else
        let diff := endZ - startZ
        workLoop startZ diff countWorkDays countOffDays (diff + 1) 0 []
  | _, _ => some []

/-! ## Loop lemmas for `getWorkSchedule` -/

/-- Lower bound on the offset counter returned by the inner work block:
the counter never decreases. -/
theorem workBlock_fst_le (startZ diff : Nat) :
    ∀ (j c : Nat) (acc : List String), c ≤ (workBlock startZ diff j c acc).1 := by
  intro j
  induction j with
  | zero => intro c acc; simp [workBlock]
  | succ j ih =>
      intro c acc
      simp only [workBlock]
      split
      · simp
      · exact Nat.le_trans (by omega) (ih (c + 1) (acc ++ [formatDDMMYYYY (startZ + c)]))

/-- A non-empty inner work block advances the offset counter strictly. -/
theorem workBlock_fst_lt (startZ diff : Nat) (j c : Nat) (acc : List String)
    (hj : 1 ≤ j) : c + 1 ≤ (workBlock startZ diff j c acc).1 := by
  cases j with
  | zero => omega
  | succ j =>
      simp only [workBlock]
      split
      · simp
      · exact workBlock_fst_le startZ diff j (c + 1) (acc ++ [formatDDMMYYYY (startZ + c)])

/-- Closed form of the inner work block entered at offset `c ≤ diff` with
`j ≥ 1` remaining work days: it emits the offsets
`c, c+1, ..., min (c+j) (diff+1) - 1` in order and leaves the counter at
`min (c+j) (diff+1)`. -/
theorem workBlock_eq (startZ diff : Nat) :
    ∀ (j c : Nat) (acc : List String), 1 ≤ j → c ≤ diff →
      workBlock startZ diff j c acc =
        (min (c + j) (diff + 1),
         acc ++ (List.range' c (min (c + j) (diff + 1) - c)).map
           (fun o => formatDDMMYYYY (startZ + o))) := by
  intro j
  induction j with
  | zero => intro c acc hj; omega
  | succ j ih =>
      intro c acc _ hc
      simp only [workBlock]
      by_cases hd : diff < c + 1
      · rw [if_pos hd]
        have hmin : min (c + (j + 1)) (diff + 1) = c + 1 := by omega
        rw [hmin]
        have h1 : c + 1 - c = 1 := by omega
        rw [h1, List.range'_one, List.map_singleton]
      · rw [if_neg hd]
        cases j with
        | zero =>
            simp only [workBlock]
            have hmin : min (c + 1) (diff + 1) = c + 1 := by omega
            rw [hmin]
            have h1 : c + 1 - c = 1 := by omega
            rw [h1, List.range'_one, List.map_singleton]
        | succ j2 =>
            rw [ih (c + 1) (acc ++ [formatDDMMYYYY (startZ + c)]) (by omega) (by omega)]
            have hmm : min (c + 1 + (j2 + 1)) (diff + 1) = min (c + (j2 + 1 + 1)) (diff + 1) := by
              omega
            rw [hmm]
            have hM : c + 1 ≤ min (c + (j2 + 1 + 1)) (diff + 1) := by omega
            have h2 : min (c + (j2 + 1 + 1)) (diff + 1) - c =
                (min (c + (j2 + 1 + 1)) (diff + 1) - (c + 1)) + 1 := by omega
            rw [h2, List.range'_succ, List.map_cons]
            simp [List.append_assoc]

/-- Splitting of the work/off cycle filter at the first work block: the
offsets `o` in `[c, diff]` with `(o - c) mod (w + off) < w` are the run
`c, ..., min (c+w) (diff+1) - 1` followed by the offsets of the same
shape relative to `min (c+w) (diff+1) + off`. -/
theorem schedule_filter_split (w off c diff : Nat) (hw : 1 ≤ w) (hc : c ≤ diff) :
    (List.range' c (diff + 1 - c)).filter (fun o => decide ((o - c) % (w + off) < w)) =
      List.range' c (min (c + w) (diff + 1) - c) ++
        (List.range' (min (c + w) (diff + 1) + off)
            (diff + 1 - (min (c + w) (diff + 1) + off))).filter
          (fun o => decide ((o - (min (c + w) (diff + 1) + off)) % (w + off) < w)) := by
  by_cases htr : diff + 1 ≤ c + w
  · have h1 : min (c + w) (diff + 1) = diff + 1 := by omega
    have h2 : diff + 1 - (diff + 1 + off) = 0 := by omega
    rw [h1, h2]
    simp only [List.range'_zero, List.filter_nil, List.append_nil]
    refine List.filter_eq_self.mpr ?_
    intro a ha
    rw [List.mem_range'_1] at ha
    simp only [decide_eq_true_eq]
    have hlt : a - c < w + off := by omega
    rw [Nat.mod_eq_of_lt hlt]
    omega
  · have hm : min (c + w) (diff + 1) = c + w := by omega
    rw [hm]
    have hw2 : c + w - c = w := by omega
    rw [hw2]
    have hsplit : diff + 1 - c = (diff + 1 - c - w) + w := by omega
    rw [hsplit, ← List.range'_append_1, List.filter_append]
    have hfirst : (List.range' c w).filter (fun o => decide ((o - c) % (w + off) < w)) =
        List.range' c w := by
      refine List.filter_eq_self.mpr ?_
      intro a ha
      rw [List.mem_range'_1] at ha
      simp only [decide_eq_true_eq]
      have hlt : a - c < w + off := by omega
      rw [Nat.mod_eq_of_lt hlt]
      omega
    rw [hfirst]
    have hsecond : (List.range' (c + w) (diff + 1 - c - w)).filter
        (fun o => decide ((o - c) % (w + off) < w)) =
        (List.range' (c + w + off) (diff + 1 - (c + w + off))).filter
          (fun o => decide ((o - (c + w + off)) % (w + off) < w)) := by
      by_cases hoff : diff + 1 ≤ c + w + off
      · have h2 : diff + 1 - (c + w + off) = 0 := by omega
        rw [h2]
        simp only [List.range'_zero, List.filter_nil]
        refine List.filter_eq_nil_iff.mpr ?_
        intro a ha
        rw [List.mem_range'_1] at ha
        simp only [decide_eq_true_eq, not_lt]
        have hlt : a - c < w + off := by omega
        rw [Nat.mod_eq_of_lt hlt]
        omega
      · have hsplit2 : diff + 1 - c - w = (diff + 1 - c - w - off) + off := by omega
        rw [hsplit2, ← List.range'_append_1, List.filter_append]
        have hskip : (List.range' (c + w) off).filter
            (fun o => decide ((o - c) % (w + off) < w)) = [] := by
          refine List.filter_eq_nil_iff.mpr ?_
          intro a ha
          rw [List.mem_range'_1] at ha
          simp only [decide_eq_true_eq, not_lt]
          have hlt : a - c < w + off := by omega
          rw [Nat.mod_eq_of_lt hlt]
          omega
        rw [hskip, List.nil_append]
        have harg : diff + 1 - c - w - off = diff + 1 - (c + w + off) := by omega
        rw [harg]
        refine List.filter_congr ?_
        intro a ha
        rw [List.mem_range'_1] at ha
        have hsub : a - c = (a - (c + w + off)) + (w + off) := by omega
        rw [hsub, Nat.add_mod_right]
    rw [hsecond]

/-- Closed form of the outer `while` loop of `getWorkSchedule` under
sufficient fuel and at least one work day per cycle: starting at offset
`c` it appends, formatted, exactly the offsets `o ∈ [c, diff]` with
`(o - c) mod (countWorkDays + countOffDays) < countWorkDays`, i.e. the
work days of the repeating cycle that begins at `c`.  In particular the
fuel `diff + 1` used by `getWorkSchedule` is sufficient: the loop
terminates (the result is `some`). -/
theorem workLoop_eq (startZ diff w off : Nat) (hw : 1 ≤ w) :
    ∀ (fuel c : Nat) (acc : List String), diff + 1 ≤ fuel + c →
      workLoop startZ diff w off fuel c acc =
        some (acc ++ ((List.range' c (diff + 1 - c)).filter
            (fun o => decide ((o - c) % (w + off) < w))).map
          (fun o => formatDDMMYYYY (startZ + o))) := by
  intro fuel
  induction fuel with
  | zero =>
      intro c acc h
      have hc : ¬ c ≤ diff := by omega
      have h0 : diff + 1 - c = 0 := by omega
      simp only [workLoop, if_neg hc, h0, List.range'_zero, List.filter_nil,
        List.map_nil, List.append_nil]
  | succ fuel ih =>
      intro c acc h
      by_cases hc : c ≤ diff
      · simp only [workLoop, if_pos hc, workStep]
        rw [workBlock_eq startZ diff w c acc hw hc]
        rw [ih (min (c + w) (diff + 1) + off) _ (by omega)]
        rw [schedule_filter_split w off c diff hw hc]
        simp [List.append_assoc]
      · have h0 : diff + 1 - c = 0 := by omega
        simp only [workLoop, if_neg hc, h0, List.range'_zero, List.filter_nil,
          List.map_nil, List.append_nil]

/-! ### Claims about `getNextFriday` -/

/-- C7: for every input date, `getNextFriday` returns a date falling on a
Friday, strictly after the input by 1 to 7 days; an input whose weekday
is before Friday goes to the same week's Friday (`+ (5 - weekday)`), an
input on or after Friday wraps to the following week's Friday
(`+ (7 - weekday + 5)`), so a Friday maps to exactly 7 days later. -/
theorem getNextFriday_spec (z : Nat) :
    weekday (getNextFriday z) = 5 ∧
    z + 1 ≤ getNextFriday z ∧ getNextFriday z ≤ z + 7 ∧
    (weekday z < 5 → getNextFriday z = z + (5 - weekday z)) ∧
    (5 ≤ weekday z → getNextFriday z = z + (7 - weekday z + 5)) ∧
    (weekday z = 5 → getNextFriday z = z + 7) := by
  simp only [getNextFriday, weekday]
  split_ifs <;> refine ⟨?_, ?_, ?_, ?_, ?_, ?_⟩ <;> omega

/-- Witness for C7 at 2024-02-13 (a Tuesday): the result is that week's
Friday, 2024-02-16. -/
theorem getNextFriday_spec_witness :
    weekday (getNextFriday (civilToDays 2024 2 13)) = 5 ∧
    getNextFriday (civilToDays 2024 2 13) =
      civilToDays 2024 2 13 + (5 - weekday (civilToDays 2024 2 13)) :=
  ⟨(getNextFriday_spec (civilToDays 2024 2 13)).1,
   (getNextFriday_spec (civilToDays 2024 2 13)).2.2.2.1 (by decide)⟩

/-- C4 counterexample: `getNextFriday` mutates the `Date` it is given, so
calling it twice with the same `Date` object does not yield identical
outputs.  Starting from 2024-02-03 the first call returns (and leaves the
object at) 2024-02-09; the second call on the same object returns
2024-02-16. -/
theorem getNextFriday_shared_object_counterexample :
    getNextFriday (civilToDays 2024 2 3) = civilToDays 2024 2 9 ∧
    getNextFriday (getNextFriday (civilToDays 2024 2 3)) = civilToDays 2024 2 16 ∧
    getNextFriday (getNextFriday (civilToDays 2024 2 3)) ≠
      getNextFriday (civilToDays 2024 2 3) := by
  decide

/-- C4 (amended): `getNextFriday` is not free of side effects: it mutates
its `Date` argument, whose final state (the embedding's output) always
differs from its initial state, and a second call with the same object
returns a date exactly 7 days after the first call's result instead of
an identical output. -/
theorem getNextFriday_mutates (z : Nat) :
    getNextFriday z ≠ z ∧
    getNextFriday (getNextFriday z) = getNextFriday z + 7 := by
  simp only [getNextFriday, weekday]
  split_ifs <;> constructor <;> omega

/-! ### Claim about `getNextFridayThe13th` -/

/-- C2 (evaluation at the failing input): the first candidate examined by
`getNextFridayThe13th` is the 13th of the input's own month, even when
that day is already past.  From 2024-09-20 the function returns
2024-09-13, a date strictly before its input (the first Friday the 13th
on or after 2024-09-20 would be 2024-12-13, which the last conjunct
shows to be a Friday).  The spec's two examples, whose inputs do not lie
after the 13th of a Friday-the-13th month, do hold. -/
theorem getNextFridayThe13th_eval :
    getNextFridayThe13th 2024 9 20 = some (2024, 9, 13) ∧
    civilToDays 2024 9 13 < civilToDays 2024 9 20 ∧
    getNextFridayThe13th 2024 1 13 = some (2024, 9, 13) ∧
    getNextFridayThe13th 2023 2 1 = some (2023, 10, 13) ∧
    weekday (civilToDays 2024 12 13) = 5 := by
  decide

/-! ### Claim about `formatDate` -/

/-- C3 (evaluation at the failing input): `formatDate` derives the
meridiem as `hours >= 1 && hours <= 11 ? 'AM' : 'PM'`, so the midnight
hour (UTC hour 0) is rendered `12:xx:xx PM`, not `12:xx:xx AM`; noon and
the spec's two documented examples are rendered as claimed. -/
theorem formatDate_eval :
    formatDate 2024 2 1 0 30 0 = "2/1/2024, 12:30:00 PM" ∧
    formatDate 2024 2 1 12 30 0 = "2/1/2024, 12:30:00 PM" ∧
    formatDate 2024 2 1 15 0 0 = "2/1/2024, 3:00:00 PM" ∧
    formatDate 1999 1 5 2 20 0 = "1/5/1999, 2:20:00 AM" := by
  decide

/-! ### Claim about `getWeekNumberByDate` -/

/-- C5: `getWeekNumberByDate` computes
`ceil((dayIndexInYear + shift + 1) / 7)` where `dayIndexInYear` is the
0-based day offset from January 1 of the date's year and `shift` follows
the claim's rule (`shiftSpec`: 6 when January 1 is a Sunday, 0 when it is
a Monday, weekday − 1 otherwise).  Week 1 therefore contains January 1
(second conjunct), and within a year the week number increments exactly
when a day is a Monday, i.e. weeks start on Monday (third conjunct).
The spec's three examples evaluate as claimed. -/
theorem getWeekNumberByDate_spec :
    (∀ y m d : Nat, getWeekNumberByDate y m d =
      (civilToDays y m d - civilToDays y 1 1 +
        shiftSpec (weekday (civilToDays y 1 1)) + 1 + 6) / 7) ∧
    (∀ y : Nat, getWeekNumberByDate y 1 1 = 1) ∧
    (∀ y m d m2 d2 : Nat,
      civilToDays y 1 1 ≤ civilToDays y m d →
      civilToDays y m2 d2 = civilToDays y m d + 1 →
      getWeekNumberByDate y m2 d2 =
        getWeekNumberByDate y m d +
          (if weekday (civilToDays y m2 d2) = 1 then 1 else 0)) ∧
    getWeekNumberByDate 2024 1 3 = 1 ∧
    getWeekNumberByDate 2024 1 31 = 5 ∧
    getWeekNumberByDate 2024 2 23 = 8 := by
  refine ⟨?_, ?_, ?_, by decide, by decide, by decide⟩
  · intro y m d
    simp only [getWeekNumberByDate, weekday, shiftSpec]
    split_ifs <;> omega
  · intro y
    simp only [getWeekNumberByDate, weekday]
    split_ifs <;> omega
  · intro y m d m2 d2 h1 h2
    simp only [getWeekNumberByDate, weekday]
    rw [h2]
    split_ifs <;> omega

/-- Witness for C5 at 2024-01-07 → 2024-01-08 (a Monday): the week
number increments from 1 to 2 across that Monday. -/
theorem getWeekNumberByDate_spec_witness :
    getWeekNumberByDate 2024 1 8 =
      getWeekNumberByDate 2024 1 7 +
        (if weekday (civilToDays 2024 1 8) = 1 then 1 else 0) :=
  getWeekNumberByDate_spec.2.2.1 2024 1 7 1 8 (by decide) (by decide)

/-! ### Claims about `getWorkSchedule` -/

/-- Reduction of `getWorkSchedule` on parsable, correctly ordered periods
with at least one work day per cycle, via `workLoop_eq`. -/
theorem getWorkSchedule_eq_filter (p : DatePeriod) (w off sd sm sy ed em ey : Nat)
    (hs : parseDDMMYYYY p.start = some (sd, sm, sy))
    (he : parseDDMMYYYY p.stop = some (ed, em, ey))
    (hw : 1 ≤ w)
    (hle : civilToDays sy sm sd ≤ civilToDays ey em ed) :
    getWorkSchedule p w off =
      some (((List.range' 0 (civilToDays ey em ed - civilToDays sy sm sd + 1)).filter
          (fun o => decide (o % (w + off) < w))).map
        (fun o => formatDDMMYYYY (civilToDays sy sm sd + o))) := by
  have hns : ¬ civilToDays ey em ed < civilToDays sy sm sd := by omega
  simp only [getWorkSchedule, hs, he, if_neg hns]
  rw [workLoop_eq (civilToDays sy sm sd)
    (civilToDays ey em ed - civilToDays sy sm sd) w off hw
    (civilToDays ey em ed - civilToDays sy sm sd + 1) 0 [] (by omega)]
  simp only [Nat.sub_zero, List.nil_append]

/-- C1: on a `DD-MM-YYYY` period whose end is not before its start and
positive work/off cycle lengths, `getWorkSchedule` returns exactly the
dates `start + o` (formatted `DD-MM-YYYY`, in order) for the offsets
`o ∈ [0, diff]` with `o mod (countWorkDays + countOffDays) <
countWorkDays` — the repeating cycle beginning at `start` of
`countWorkDays` emitted days followed by `countOffDays` skipped days —
where the loop bound `diff` is the day difference `end − start` with no
`+ 1` inclusive adjustment; and it returns the two lists the claim
states on the two example inputs. -/
theorem getWorkSchedule_cycle :
    (∀ (p : DatePeriod) (w off sd sm sy ed em ey : Nat),
      parseDDMMYYYY p.start = some (sd, sm, sy) →
      parseDDMMYYYY p.stop = some (ed, em, ey) →
      1 ≤ w → 1 ≤ off →
      civilToDays sy sm sd ≤ civilToDays ey em ed →
      getWorkSchedule p w off =
        some (((List.range (civilToDays ey em ed - civilToDays sy sm sd + 1)).filter
            (fun o => decide (o % (w + off) < w))).map
          (fun o => formatDDMMYYYY (civilToDays sy sm sd + o)))) ∧
    getWorkSchedule ⟨"01-01-2024", "15-01-2024"⟩ 1 3 =
      some ["01-01-2024", "05-01-2024", "09-01-2024", "13-01-2024"] ∧
    getWorkSchedule ⟨"01-01-2024", "10-01-2024"⟩ 1 1 =
      some ["01-01-2024", "03-01-2024", "05-01-2024", "07-01-2024", "09-01-2024"] := by
  refine ⟨?_, by decide, by decide⟩
  intro p w off sd sm sy ed em ey hs he hw hoff hle
  rw [getWorkSchedule_eq_filter p w off sd sm sy ed em ey hs he hw hle,
    List.range_eq_range']

/-- Witness for C1: the first example period, instantiating the general
cycle characterization. -/
theorem getWorkSchedule_cycle_witness :
    getWorkSchedule ⟨"01-01-2024", "15-01-2024"⟩ 1 3 =
      some (((List.range (civilToDays 2024 1 15 - civilToDays 2024 1 1 + 1)).filter
          (fun o => decide (o % (1 + 3) < 1))).map
        (fun o => formatDDMMYYYY (civilToDays 2024 1 1 + o))) :=
  getWorkSchedule_cycle.1 ⟨"01-01-2024", "15-01-2024"⟩ 1 3 1 1 2024 15 1 2024
    (by decide) (by decide) (by decide) (by decide) (by decide)

/-- C6: on a `DD-MM-YYYY` period whose end is not before its start and
positive work/off cycle lengths, the list returned by `getWorkSchedule`
is the formatting of a strictly increasing list of day numbers, each of
which lies in the closed interval `[start, end]`. -/
theorem getWorkSchedule_sorted_bounded :
    ∀ (p : DatePeriod) (w off sd sm sy ed em ey : Nat),
      parseDDMMYYYY p.start = some (sd, sm, sy) →
      parseDDMMYYYY p.stop = some (ed, em, ey) →
      1 ≤ w → 1 ≤ off →
      civilToDays sy sm sd ≤ civilToDays ey em ed →
      ∃ ds : List Nat,
        getWorkSchedule p w off = some (ds.map formatDDMMYYYY) ∧
        ds.Pairwise (· < ·) ∧
        ∀ z ∈ ds, civilToDays sy sm sd ≤ z ∧ z ≤ civilToDays ey em ed := by
  intro p w off sd sm sy ed em ey hs he hw hoff hle
  refine ⟨((List.range' 0 (civilToDays ey em ed - civilToDays sy sm sd + 1)).filter
      (fun o => decide (o % (w + off) < w))).map
    (fun o => civilToDays sy sm sd + o), ?_, ?_, ?_⟩
  · rw [getWorkSchedule_eq_filter p w off sd sm sy ed em ey hs he hw hle,
      List.map_map]
    rfl
  · refine List.pairwise_map.mpr ?_
    refine List.Pairwise.imp ?_
      (List.Pairwise.sublist (List.filter_sublist _) (List.pairwise_lt_range' 0 _ 1))
    intro a b hab
    omega
  · intro z hz
    rw [List.mem_map] at hz
    obtain ⟨o, ho, rfl⟩ := hz
    have ho2 := List.mem_range'_1.mp (List.mem_of_mem_filter ho)
    omega

/-- Witness for C6 at the first example period. -/
theorem getWorkSchedule_sorted_bounded_witness :
    ∃ ds : List Nat,
      getWorkSchedule ⟨"01-01-2024", "15-01-2024"⟩ 1 3 = some (ds.map formatDDMMYYYY) ∧
      ds.Pairwise (· < ·) ∧
      ∀ z ∈ ds, civilToDays 2024 1 1 ≤ z ∧ z ≤ civilToDays 2024 1 15 :=
  getWorkSchedule_sorted_bounded ⟨"01-01-2024", "15-01-2024"⟩ 1 3 1 1 2024 15 1 2024
    (by decide) (by decide) (by decide) (by decide) (by decide)

/-- C10: on a `DD-MM-YYYY` period whose end is not before its start and
`countWorkDays ≥ 1` (any `countOffDays`), `getWorkSchedule` returns a
non-empty list whose first element is the period's start date formatted
`DD-MM-YYYY`: the cycle begins with a work day, so `start` itself is
emitted first. -/
theorem getWorkSchedule_first :
    ∀ (p : DatePeriod) (w off sd sm sy ed em ey : Nat),
      parseDDMMYYYY p.start = some (sd, sm, sy) →
      parseDDMMYYYY p.stop = some (ed, em, ey) →
      1 ≤ w →
      civilToDays sy sm sd ≤ civilToDays ey em ed →
      ∃ rest : List String,
        getWorkSchedule p w off =
          some (formatDDMMYYYY (civilToDays sy sm sd) :: rest) := by
  intro p w off sd sm sy ed em ey hs he hw hle
  rw [getWorkSchedule_eq_filter p w off sd sm sy ed em ey hs he hw hle]
  rw [List.range'_succ, List.filter_cons]
  have h0 : decide (0 % (w + off) < w) = true := by
    simp only [decide_eq_true_eq, Nat.zero_mod]
    omega
  rw [h0]
  simp only [if_true, List.map_cons, Nat.add_zero]
  exact ⟨_, rfl⟩

/-- Witness for C10 at the first example period. -/
theorem getWorkSchedule_first_witness :
    ∃ rest : List String,
      getWorkSchedule ⟨"01-01-2024", "15-01-2024"⟩ 1 3 =
        some (formatDDMMYYYY (civilToDays 2024 1 1) :: rest) :=
  getWorkSchedule_first ⟨"01-01-2024", "15-01-2024"⟩ 1 3 1 1 2024 15 1 2024
    (by decide) (by decide) (by decide) (by decide)

/-- C9 counterexample: one outer iteration need not advance the
day-offset counter by `countWorkDays`.  With `diff = 1` (a two-day
period), `countWorkDays = 5` and `countOffDays = 0`, the iteration body
starting at counter 0 leaves the counter at 2: the inner block breaks at
the period end, an advance strictly smaller than `countWorkDays = 5`. -/
theorem workStep_increase_counterexample :
    (workStep (civilToDays 2024 1 1) 1 5 0 0 []).1 = 2 ∧
    (workStep (civilToDays 2024 1 1) 1 5 0 0 []).1 - 0 < 5 := by
  decide

/-- C9 (amended): the loop of `getWorkSchedule` terminates whenever
`countWorkDays ≥ 1`: every outer iteration advances the day-offset
counter by at least `1 + countOffDays` (by `countWorkDays +
countOffDays` when the work block is not cut short by the period end),
so with fuel `diff + 1` the while condition fails before the fuel runs
out and the loop returns its accumulated array. -/
theorem workLoop_terminates :
    (∀ (startZ diff w off c : Nat) (acc : List String), 1 ≤ w →
      c + 1 + off ≤ (workStep startZ diff w off c acc).1) ∧
    (∀ (startZ diff w off fuel c : Nat) (acc : List String), 1 ≤ w →
      diff + 1 ≤ fuel + c →
      (workLoop startZ diff w off fuel c acc).isSome = true) := by
  constructor
  · intro startZ diff w off c acc hw
    simp only [workStep]
    have := workBlock_fst_lt startZ diff w c acc hw
    omega
  · intro startZ diff w off fuel c acc hw hfuel
    rw [workLoop_eq startZ diff w off hw fuel c acc hfuel]
    rfl

/-- Witness for C9 (amended) at the first example period's parameters:
`diff = 14`, one work day then three off days, fuel 15. -/
theorem workLoop_terminates_witness :
    0 + 1 + 3 ≤ (workStep (civilToDays 2024 1 1) 14 1 3 0 []).1 ∧
    (workLoop (civilToDays 2024 1 1) 14 1 3 15 0 []).isSome = true :=
  ⟨workLoop_terminates.1 (civilToDays 2024 1 1) 14 1 3 0 [] (by decide),
   workLoop_terminates.2 (civilToDays 2024 1 1) 14 1 3 15 0 [] (by decide) (by decide)⟩

/-! ### Claim about `dateToTimestamp` -/

/-- C8: `dateToTimestamp` never raises: on every string the host parser
cannot parse it returns the not-a-number sentinel `JSNumber.nan`, and on
every parsable date-time string it returns the integer count of
milliseconds since 1970-01-01T00:00:00 UTC of the parsed instant; in
particular the epoch string maps to 0, 1995-12-04T00:12:00 UTC maps to
818035920000 (the value documented in the source), and an unparsable
string maps to the sentinel. -/
theorem dateToTimestamp_spec :
    (∀ date : String, parseISODateTime date = none →
      dateToTimestamp date = JSNumber.nan) ∧
    (∀ (date : String) (y mo d hh mi ss ms : Nat),
      parseISODateTime date = some (y, mo, d, hh, mi, ss, ms) →
      dateToTimestamp date = JSNumber.num (msSinceEpoch y mo d hh mi ss ms)) ∧
    dateToTimestamp "1970-01-01T00:00:00.000Z" = JSNumber.num 0 ∧
    dateToTimestamp "1995-12-04T00:12:00.000Z" = JSNumber.num 818035920000 ∧
    dateToTimestamp "not a real date" = JSNumber.nan := by
  refine ⟨?_, ?_, by decide, by decide, by decide⟩
  · intro date h
    simp only [dateToTimestamp, h]
  · intro date y mo d hh mi ss ms h
    simp only [dateToTimestamp, h]

set_option synthInstance.maxSize 512 in
/-- Witness for C8: an unparsable string yields the sentinel and a
parsable one yields its epoch milliseconds. -/
theorem dateToTimestamp_spec_witness :
    dateToTimestamp "99-99-9999" = JSNumber.nan ∧
    dateToTimestamp "2024-02-01T15:00:00.000Z" =
      JSNumber.num (msSinceEpoch 2024 2 1 15 0 0 0) := by
  refine ⟨dateToTimestamp_spec.1 "99-99-9999" ?_,
    dateToTimestamp_spec.2.1 "2024-02-01T15:00:00.000Z" 2024 2 1 15 0 0 0 ?_⟩ <;>
  decide

end CoreJsDates
